import Mathlib

/-
Verification of the two-seat Ludo rules engine.

The authoritative engine is the server module src/server/sockets/io.js
(the final iteration, with locked positions).  The client mirror
src/unnamed/part_000 (Ludo.js) supplies the path function getPath that the
server validator calls by name.  The constants module
(constants_server.js / constants.js) is not among the sources, so the
board constants below are modelled from the specification.
-/

namespace Ludo

/-- The two seats of a match, named after the player ids 'P1' and 'P3'
used throughout the source. -/
inductive Player
  | P1
  | P3
  deriving DecidableEq, Repr

/-- The seat opposing a given seat (there are exactly two seats). -/
def otherPlayer : Player → Player
  | .P1 => .P3
  | .P3 => .P1

/-- Modelled from the spec: constants_server.js is missing from the sources.
Seat-specific entry cell on the shared 52-cell track where a piece lands
when leaving base (spec section 3, section 4.4). -/
def START_POSITIONS : Player → Nat
  | .P1 => 0
  | .P3 => 26

/-- Modelled from the spec: constants_server.js is missing from the sources.
Seat-specific turning point on the shared track after which the piece
enters its private home lane (spec section 4.1). -/
def TURNING_POINTS : Player → Nat
  | .P1 => 50
  | .P3 => 24

/-- Modelled from the spec: constants_server.js is missing from the sources.
The seat-private home lane: a 5-cell ordered sequence, encoded in a
reserved range disjoint from the 52 shared track cells (spec section 3,
section 9). -/
def HOME_ENTRANCE : Player → List Nat
  | .P1 => [100, 101, 102, 103, 104]
  | .P3 => [200, 201, 202, 203, 204]

/-- Modelled from the spec: constants_server.js is missing from the sources.
The terminal Home value of each seat, one past the last home lane cell. -/
def HOME_POSITIONS : Player → Nat
  | .P1 => 105
  | .P3 => 205

/-- Modelled from the spec: constants_server.js is missing from the sources.
The four fixed per-seat base slot values, encoded as sentinels of at least
500 as the source's range checks require (spec section 9). -/
def BASE_POSITIONS : Player → List Nat
  | .P1 => [500, 501, 502, 503]
  | .P3 => [600, 601, 602, 603]

/-- Modelled from the spec: constants_server.js is missing from the sources.
The fixed safe cells, shared by both seats: the two entry cells plus
evenly spaced neutral cells (spec section 4.4). -/
def SAFE_POSITIONS : List Nat := [0, 8, 13, 21, 26, 34, 39, 47]

/-- The per-room match state, mirroring the gameState object built by
initializeGameState in io.js: piece positions per player, the turn index
into the players array, the pending dice value (null encoded as none),
the kill flag of the last applied move, and the stored locked-position
map (position to owning player). -/
structure GameState where
  currentPositions : Player → Fin 4 → Nat
  turn : Nat
  diceValue : Option Nat
  killOccurred : Bool
  lockedPositions : Nat → Option Player

/-- The players array of a room always lists P1 first (assignPlayerId in
io.js hands out ids in the order P1 then P3), so the turn index selects
P1 on even values and P3 on odd values. -/
def playerAt (turn : Nat) : Player :=
  if turn % 2 = 0 then .P1 else .P3

/-- getNextPosition from io.js: successor of a position along a seat's
route.  Turning point enters the home lane; inside the home lane advance
or reach Home; track cell 51 wraps to 0; otherwise add one. -/
def getNextPosition (pid : Player) (cur : Nat) : Nat :=
  if cur = TURNING_POINTS pid then (HOME_ENTRANCE pid).getD 0 0
  else if cur ∈ HOME_ENTRANCE pid then
    let i := (HOME_ENTRANCE pid).indexOf cur
    if i + 1 < (HOME_ENTRANCE pid).length then (HOME_ENTRANCE pid).getD (i + 1) 0
    else HOME_POSITIONS pid
  else if cur = 51 then 0
  else cur + 1

/-- The loop bound of the JS stepping loops: the loop for i < diceValue
runs diceValue times for a numeric dice value and zero times when
diceValue is null (in JS, 0 < null is false). -/
def diceCount : Option Nat → Nat
  | none => 0
  | some d => d

/-- getPath from the client engine src/unnamed/part_000 (lines 361-376),
the path function the server validator invokes by name: one successor per
pip, stopping the accumulation as soon as the Home position is pushed. -/
def getPath (pid : Player) (cur : Nat) : Nat → List Nat
  | 0 => []
  | Nat.succ d =>
    let p := getNextPosition pid cur
    if p = HOME_POSITIONS pid then [p]
    else p :: getPath pid p d

/-- The stepping loop of applyMove in io.js (lines 446-453): one successor
per pip with every intermediate position recorded, with no early stop at
Home. -/
def moveSteps (pid : Player) (cur : Nat) : Nat → List Nat
  | 0 => []
  | Nat.succ d =>
    let p := getNextPosition pid cur
    p :: moveSteps pid p d

/-- isBeyondHome from io.js (lines 508-514): true iff the position is
neither a home lane cell nor Home itself and is strictly greater than the
seat's Home value. -/
def isBeyondHome (pid : Player) (position : Nat) : Bool :=
  if position ∈ HOME_ENTRANCE pid ∨ position = HOME_POSITIONS pid then false
  else decide (HOME_POSITIONS pid < position)

/-- hasPlayerWon from io.js: every piece of the seat sits at its Home value. -/
def hasPlayerWon (s : GameState) (pid : Player) : Bool :=
  (List.finRange 4).all (fun i => s.currentPositions pid i == HOME_POSITIONS pid)

/-- The number of pieces of player p counted at cell c by
updateLockedPositions (io.js lines 156-199): a piece is counted unless it
stands on one of its own seat's base values or on its own seat's Home
value (those positions are skipped before counting). -/
def countAt (cp : Player → Fin 4 → Nat) (p : Player) (c : Nat) : Nat :=
  ((List.finRange 4).filter (fun i =>
    decide (cp p i = c ∧ cp p i ∉ BASE_POSITIONS p ∧ cp p i ≠ HOME_POSITIONS p))).length

/-- The locked-position map recomputed by updateLockedPositions: a cell is
locked when some player has at least two counted pieces on it.  The JS
assignment loop writes every qualifying player into
lockedPositions in enumeration order; P1 pieces are counted before P3
pieces, so when both players qualify the later write by P3 wins. -/
def lockedAfter (cp : Player → Fin 4 → Nat) : Nat → Option Player := fun c =>
  if 2 ≤ countAt cp .P3 c then some .P3
  else if 2 ≤ countAt cp .P1 c then some .P1
  else none

/-- updateLockedPositions from io.js: resets and recomputes the stored
lock map from the current piece positions. -/
def updateLockedPositions (s : GameState) : GameState :=
  { s with lockedPositions := lockedAfter s.currentPositions }

/-- The lock test of the validator loop in io.js
(lockOwner truthy and different from the moving player). -/
def blockedAt (s : GameState) (pid : Player) (pos : Nat) : Bool :=
  match s.lockedPositions pos with
  | some owner => if owner = pid then false else true
  | none => false

/-- validateMove from io.js (lines 568-619, the later of the two identical
declarations, which shadows the first), with the path supplied by the
client getPath of src/unnamed/part_000 — the function the server calls by
name (see validateMoveServer for the name-resolution model).  A base piece
(position at least 500) needs dice exactly 6 and an entry cell not locked
by the opponent; otherwise every path cell locked by the opponent rejects,
and a final position beyond Home rejects.  When the path is empty the JS
final position is undefined and isBeyondHome on undefined evaluates to
false, so the move is accepted. -/
def validateMove (s : GameState) (pid : Player) (idx : Fin 4) : Bool :=
  let cur := s.currentPositions pid idx
  if 500 ≤ cur then
    if s.diceValue ≠ some 6 then false
    else
      match s.lockedPositions (START_POSITIONS pid) with
      | some owner => if owner = pid then true else false
      | none => true
  else
    let path := getPath pid cur (diceCount s.diceValue)
    if path.any (blockedAt s pid) then false
    else
      match path.getLast? with
      | none => true
      | some f => if isBeyondHome pid f then false else true

/-- The identifiers bound in the scope of the connection handler of
src/server/sockets/io.js: the destructured constants import, the module
level games table, and every function declaration of the file.  The name
getPath appears nowhere in it. -/
def ioServerScope : List String :=
  ["COORDINATES_MAP", "BASE_POSITIONS", "HOME_ENTRANCE", "HOME_POSITIONS",
   "PLAYERS", "SAFE_POSITIONS", "START_POSITIONS", "TURNING_POINTS", "STATE",
   "games", "socket", "findAvailableRoom", "assignPlayerId",
   "initializeGameState", "updateLockedPositions", "isPositionLocked",
   "handleDisconnect", "handleDiceRoll", "handleMakeMove", "handleNoMoves",
   "validateMove", "applyMove", "getNextPosition", "isBeyondHome",
   "checkForKill", "hasPlayerWon"]

/-- Evaluating the identifier getPath in the server module: when the name
is not bound in scope, JS raises a ReferenceError instead of producing a
path. -/
def getPathServer (pid : Player) (cur : Nat) (dice : Nat) :
    Except String (List Nat) :=
  if "getPath" ∈ ioServerScope then Except.ok (getPath pid cur dice)
  else Except.error "ReferenceError: getPath is not defined"

/-- validateMove exactly as it executes inside io.js, where the call
getPath(gameState, playerId, currentPosition, diceValue) resolves the name
getPath in the module scope: the Track and Home-lane branch can only
produce a verdict if that resolution succeeds. -/
def validateMoveServer (s : GameState) (pid : Player) (idx : Fin 4) :
    Except String Bool :=
  let cur := s.currentPositions pid idx
  if 500 ≤ cur then
    Except.ok
      (if s.diceValue ≠ some 6 then false
       else
         match s.lockedPositions (START_POSITIONS pid) with
         | some owner => if owner = pid then true else false
         | none => true)
  else do
    let path ← getPathServer pid cur (diceCount s.diceValue)
    if path.any (blockedAt s pid) then pure false
    else
      match path.getLast? with
      | none => pure true
      | some f => pure (if isBeyondHome pid f then false else true)

/-- The movement record returned by applyMove and broadcast to the room. -/
structure MoveData where
  playerId : Player
  pieceIndex : Fin 4
  path : List Nat
  killOccurred : Bool
  killedPieces : List (Player × Fin 4)

/-- Pointwise update of the piece-position table. -/
def updatePos (cp : Player → Fin 4 → Nat) (p : Player) (i : Fin 4) (v : Nat) :
    Player → Fin 4 → Nat :=
  fun q j => if q = p ∧ j = i then v else cp q j

/-- checkForKill from io.js (lines 523-559): evaluated only at the landed
cell; on a safe cell no kill; on a locked cell no kill whoever owns the
lock (both branches of the ownership test return the empty list);
otherwise every opposing piece standing exactly on that cell is reset to
its own base slot of the same index and recorded. -/
def checkForKill (s : GameState) (pid : Player) (newPos : Nat) :
    GameState × List (Player × Fin 4) :=
  if newPos ∈ SAFE_POSITIONS then (s, [])
  else
    match s.lockedPositions newPos with
    | some _ => (s, [])
    | none =>
      let opp := otherPlayer pid
      let killed := (List.finRange 4).filter
        (fun i => decide (s.currentPositions opp i = newPos))
      let cp := fun (q : Player) (j : Fin 4) =>
        if q = opp ∧ s.currentPositions opp j = newPos
        then (BASE_POSITIONS opp).getD j.val 0
        else s.currentPositions q j
      ({ s with currentPositions := cp }, killed.map (fun i => (opp, i)))

/-- The path recorded by applyMove in io.js: a base piece contributes the
one-element path to the entry cell; otherwise the stepping loop records
one position per pip with no stop at Home. -/
def landingPath (s : GameState) (pid : Player) (idx : Fin 4) : List Nat :=
  if 500 ≤ s.currentPositions pid idx then [START_POSITIONS pid]
  else moveSteps pid (s.currentPositions pid idx) (diceCount s.diceValue)

/-- The newPosition variable of applyMove after the stepping loop: the
last recorded position, or the starting position when the loop ran zero
times. -/
def landingPos (s : GameState) (pid : Player) (idx : Fin 4) : Nat :=
  (landingPath s pid idx).getLastD (s.currentPositions pid idx)

/-- The game state right after applyMove writes the moved piece's new
position, before kill resolution. -/
def movedState (s : GameState) (pid : Player) (idx : Fin 4) : GameState :=
  { s with currentPositions :=
      updatePos s.currentPositions pid idx (landingPos s pid idx) }

/-- applyMove from io.js (lines 432-477): a base piece jumps to the entry
cell with a one-element path; otherwise the piece steps once per pip
through moveSteps (with no stop at Home), the landed position is written,
kills are resolved at the landed cell, the kill flag is set from the kill
list, and the lock map is recomputed from scratch. -/
def applyMove (s : GameState) (pid : Player) (idx : Fin 4) :
    GameState × MoveData :=
  let ck := checkForKill (movedState s pid idx) pid (landingPos s pid idx)
  (updateLockedPositions { ck.1 with killOccurred := !ck.2.isEmpty },
   { playerId := pid, pieceIndex := idx, path := landingPath s pid idx,
     killOccurred := !ck.2.isEmpty, killedPieces := ck.2 })

/-- Outcome of a makeMove intent as handled by handleMakeMove: rejection
(error relayed to the offending client, state untouched), a win (room torn
down), or an applied move with the updated state broadcast. -/
inductive MoveResult
  | rejected (s : GameState)
  | gameOver (winner : Player)
  | applied (s : GameState) (md : MoveData)

/-- handleMakeMove from io.js (lines 275-332): reject when the requester is
not the seat whose turn it is or when validation fails; otherwise apply
the move, end the game on a win, grant a repeat turn when the dice value
is 6 or a kill occurred, and clear dice value and kill flag. -/
def handleMakeMove (s : GameState) (requester : Player) (idx : Fin 4) :
    MoveResult :=
  let current := playerAt s.turn
  if requester ≠ current then .rejected s
  else if validateMove s current idx = false then .rejected s
  else
    let am := applyMove s current idx
    if hasPlayerWon am.1 current then .gameOver current
    else
      let extraTurn := am.1.diceValue = some 6 ∨ am.1.killOccurred = true
      .applied
        { am.1 with
          turn := if extraTurn then am.1.turn else (am.1.turn + 1) % 2,
          diceValue := none,
          killOccurred := false }
        am.2

/-- Outcome of a rollDice intent as handled by handleDiceRoll. -/
inductive RollResult
  | rejected (s : GameState)
  | rolled (s : GameState)

/-- handleDiceRoll from io.js (lines 242-267): reject only when the
requester is not the seat whose turn it is; otherwise store the freshly
rolled value (the random roll is a parameter here).  No check of an
already pending dice value is performed. -/
def handleDiceRoll (s : GameState) (requester : Player) (roll : Nat) :
    RollResult :=
  if requester ≠ playerAt s.turn then .rejected s
  else .rolled { s with diceValue := some roll }

/-- Outcome of a noMoves intent as handled by handleNoMoves. -/
inductive PassResult
  | rejected (s : GameState)
  | accepted (s : GameState)

/-- handleNoMoves from io.js (lines 339-363): reject when the requester is
not the seat whose turn it is; otherwise pass the turn to the other seat
and clear the dice value. -/
def handleNoMoves (s : GameState) (requester : Player) : PassResult :=
  if requester ≠ playerAt s.turn then .rejected s
  else .accepted { s with turn := (s.turn + 1) % 2, diceValue := none }

theorem player_ne_iff (o pid : Player) : o ≠ pid ↔ o = otherPlayer pid := by
  cases o <;> cases pid <;> simp [otherPlayer]

theorem ne_otherPlayer (pid : Player) : pid ≠ otherPlayer pid := by
  cases pid <;> simp [otherPlayer]

theorem blockedAt_eq_true (s : GameState) (pid : Player) (pos : Nat) :
    blockedAt s pid pos = true ↔
      s.lockedPositions pos = some (otherPlayer pid) := by
  unfold blockedAt
  split
  · rename_i owner heq
    rw [heq]
    cases owner <;> cases pid <;> simp [otherPlayer]
  · rename_i heq
    rw [heq]
    simp

theorem checkForKill_fst_diceValue (s : GameState) (pid : Player) (np : Nat) :
    (checkForKill s pid np).1.diceValue = s.diceValue := by
  unfold checkForKill
  split
  · rfl
  · split <;> rfl

theorem checkForKill_fst_turn (s : GameState) (pid : Player) (np : Nat) :
    (checkForKill s pid np).1.turn = s.turn := by
  unfold checkForKill
  split
  · rfl
  · split <;> rfl

theorem applyMove_fst_diceValue (s : GameState) (pid : Player) (idx : Fin 4) :
    (applyMove s pid idx).1.diceValue = s.diceValue :=
  checkForKill_fst_diceValue (movedState s pid idx) pid (landingPos s pid idx)

theorem applyMove_fst_turn (s : GameState) (pid : Player) (idx : Fin 4) :
    (applyMove s pid idx).1.turn = s.turn :=
  checkForKill_fst_turn (movedState s pid idx) pid (landingPos s pid idx)

theorem applyMove_fst_kill (s : GameState) (pid : Player) (idx : Fin 4) :
    (applyMove s pid idx).1.killOccurred = (applyMove s pid idx).2.killOccurred :=
  rfl

/-- Extracts the moved player's piece position from an applied move result. -/
def moveOutcomePos (r : MoveResult) (p : Player) (i : Fin 4) : Option Nat :=
  match r with
  | .applied s _ => some (s.currentPositions p i)
  | _ => none

/-- A snapshot with one P1 piece on the last home-lane cell 104, one step
from Home 105, all other pieces in base, dice value 3, P1 to move. -/
def cpC1 : Player → Fin 4 → Nat := fun p i =>
  (match p with
   | Player.P1 => [104, 500, 501, 502]
   | Player.P3 => [600, 601, 602, 603]).getD i.val 0

def sC1 : GameState :=
  { currentPositions := cpC1, turn := 0, diceValue := some 3,
    killOccurred := false, lockedPositions := lockedAfter cpC1 }

/-- Claim C1: for a validated Track or Home-lane move, applyMove is claimed
to advance the piece along the path computed by the validator and to stop
at Home when Home is reached before all pips are used.  The code violates
this: with a P1 piece at the last home-lane cell 104 and dice 3, the
validator's path (getPath) truncates at Home, [105], and the move
validates, but applyMove consumes all three pips through getNextPosition,
records the path [105, 106, 107] and leaves the piece at 107, strictly
past Home. -/
theorem c1_applied_move_overshoots_home :
    validateMove sC1 .P1 0 = true
    ∧ getPath .P1 104 (diceCount sC1.diceValue) = [105]
    ∧ (applyMove sC1 .P1 0).2.path = [105, 106, 107]
    ∧ (applyMove sC1 .P1 0).1.currentPositions .P1 0 = 107
    ∧ isBeyondHome .P1 107 = true := by
  refine ⟨by decide, by decide, by decide, by decide, by decide⟩

/-- Claim C2: in the final server engine, every validation of a piece that
is not in base (encoded position below 500) reaches the call of the name
getPath, which is bound nowhere in the io.js module scope, so the
evaluation raises a ReferenceError instead of producing a legal or illegal
verdict, whatever the rest of the game state holds. -/
theorem c2_validateMove_server_getPath_undefined (s : GameState)
    (pid : Player) (idx : Fin 4)
    (h : s.currentPositions pid idx < 500) :
    validateMoveServer s pid idx =
      Except.error "ReferenceError: getPath is not defined" := by
  unfold validateMoveServer
  rw [if_neg (by omega)]
  unfold getPathServer
  rw [if_neg (by decide)]
  rfl

def sC2 : GameState :=
  { currentPositions := fun _ i =>
      (match i.val with | 0 => 10 | 1 => 500 | 2 => 501 | _ => 502),
    turn := 0, diceValue := some 4,
    killOccurred := false, lockedPositions := fun _ => none }

/-- Witness for claim C2 at a concrete state with a piece on track cell 10. -/
theorem c2_witness :
    sC2.currentPositions .P1 0 < 500
    ∧ validateMoveServer sC2 .P1 0 =
        Except.error "ReferenceError: getPath is not defined" :=
  ⟨by decide, c2_validateMove_server_getPath_undefined sC2 .P1 0 (by decide)⟩

/-- A snapshot with one P1 piece on home-lane cell 102, three cells from
Home 105, all other pieces in base, dice value 5, P1 to move. -/
def cpC6 : Player → Fin 4 → Nat := fun p i =>
  (match p with
   | Player.P1 => [102, 500, 501, 502]
   | Player.P3 => [600, 601, 602, 603]).getD i.val 0

def sC6 : GameState :=
  { currentPositions := cpC6, turn := 0, diceValue := some 5,
    killOccurred := false, lockedPositions := lockedAfter cpC6 }

/-- Claim C6: a move whose final path cell satisfies isBeyondHome is
claimed to be rejected, and in particular a piece in its home lane three
cells from Home rolling a 5 is claimed illegal.  The code violates the
scenario: getPath truncates the path at Home, the final path cell is Home
itself, isBeyondHome never fires, the move validates, and handleMakeMove
applies it, leaving the piece at 107, past Home, with the state changed. -/
theorem c6_overshoot_not_rejected :
    validateMove sC6 .P1 0 = true
    ∧ getPath .P1 102 (diceCount sC6.diceValue) = [103, 104, 105]
    ∧ moveOutcomePos (handleMakeMove sC6 .P1 0) .P1 0 = some 107 := by
  refine ⟨by decide, by decide, by decide⟩

/-- Claim C3: for a piece on Track or Home-lane, the move is legal exactly
when no cell of the computed path (final cell included) is locked by the
other seat and the final cell does not overshoot Home; a lock owned by the
moving seat itself never appears in the condition, so it never blocks. -/
theorem c3_opponent_lock_blocks_path (s : GameState) (pid : Player)
    (idx : Fin 4) (h : s.currentPositions pid idx < 500) :
    validateMove s pid idx = true ↔
      ((∀ pos ∈ getPath pid (s.currentPositions pid idx)
            (diceCount s.diceValue),
          s.lockedPositions pos ≠ some (otherPlayer pid))
       ∧ ∀ f, (getPath pid (s.currentPositions pid idx)
              (diceCount s.diceValue)).getLast? = some f →
            isBeyondHome pid f = false) := by
  simp only [validateMove]
  rw [if_neg (by omega)]
  set pth := getPath pid (s.currentPositions pid idx) (diceCount s.diceValue)
    with hpth
  by_cases hb : pth.any (blockedAt s pid) = true
  · rw [if_pos hb]
    simp only [List.any_eq_true] at hb
    obtain ⟨pos, hmem, hblk⟩ := hb
    rw [blockedAt_eq_true] at hblk
    constructor
    · intro hfalse; exact absurd hfalse (by simp)
    · rintro ⟨h1, _⟩; exact absurd hblk (h1 pos hmem)
  · rw [if_neg hb]
    rw [Bool.not_eq_true] at hb
    have h1 : ∀ pos ∈ pth, s.lockedPositions pos ≠ some (otherPlayer pid) := by
      intro pos hmem hcon
      have hbt : blockedAt s pid pos = true :=
        (blockedAt_eq_true s pid pos).mpr hcon
      have hfalse := List.any_eq_false.mp hb pos hmem
      simp [hbt] at hfalse
    cases hlast : pth.getLast? with
    | none =>
        simp only [hlast]
        constructor
        · intro _
          exact ⟨h1, fun f hf => absurd hf (by simp)⟩
        · intro _; trivial
    | some f =>
        simp only [hlast]
        by_cases hbey : isBeyondHome pid f = true
        · rw [if_pos hbey]
          constructor
          · intro hfalse; exact absurd hfalse (by simp)
          · rintro ⟨_, h2⟩
            have hf := h2 f rfl
            rw [hbey] at hf
            exact absurd hf (by simp)
        · rw [Bool.not_eq_true] at hbey
          rw [if_neg (by simp [hbey])]
          constructor
          · intro _
            refine ⟨h1, ?_⟩
            intro f2 hf2
            injection hf2 with hf2e
            rw [← hf2e]
            exact hbey
          · intro _; rfl

/-- A snapshot with a P1 piece on track cell 5 and a P3 lock on cell 7
(two P3 pieces stacked there), dice value 3, so the P1 path [6, 7, 8]
crosses the opponent lock. -/
def cpC3 : Player → Fin 4 → Nat := fun p i =>
  (match p with
   | Player.P1 => [5, 500, 501, 502]
   | Player.P3 => [7, 7, 600, 601]).getD i.val 0

def sC3 : GameState :=
  { currentPositions := cpC3, turn := 0, diceValue := some 3,
    killOccurred := false, lockedPositions := lockedAfter cpC3 }

/-- Witness for claim C3: the P1 move crossing the P3 lock at cell 7 is
rejected. -/
theorem c3_witness :
    sC3.currentPositions .P1 0 < 500 ∧ validateMove sC3 .P1 0 = false := by
  refine ⟨by decide, ?_⟩
  cases hv : validateMove sC3 .P1 0 with
  | false => rfl
  | true =>
      have h2 := (c3_opponent_lock_blocks_path sC3 .P1 0 (by decide)).mp hv
      have h3 := h2.1 7 (by decide)
      exact absurd (by decide : sC3.lockedPositions 7 = some (otherPlayer .P1)) h3

/-- Claim C5: a base piece (encoded position at least 500) may move exactly
when the dice value is 6 and the seat's entry cell is not locked by the
other seat; a lock owned by the moving seat itself does not prevent
entering. -/
theorem c5_base_exit_requires_six (s : GameState) (pid : Player)
    (idx : Fin 4) (h : 500 ≤ s.currentPositions pid idx) :
    validateMove s pid idx = true ↔
      (s.diceValue = some 6 ∧
       s.lockedPositions (START_POSITIONS pid) ≠ some (otherPlayer pid)) := by
  simp only [validateMove]
  rw [if_pos h]
  by_cases hd : s.diceValue = some 6
  · rw [if_neg (not_not_intro hd)]
    cases hl : s.lockedPositions (START_POSITIONS pid) with
    | none => simp [hd, hl]
    | some owner =>
        simp only [hl]
        cases owner <;> cases pid <;> simp [otherPlayer, hd]
  · rw [if_pos hd]
    simp [hd]

/-- A snapshot with every piece in base and a pending dice value of 6. -/
def cpC5 : Player → Fin 4 → Nat := fun p i =>
  (match p with
   | Player.P1 => [500, 501, 502, 503]
   | Player.P3 => [600, 601, 602, 603]).getD i.val 0

def sC5 : GameState :=
  { currentPositions := cpC5, turn := 0, diceValue := some 6,
    killOccurred := false, lockedPositions := lockedAfter cpC5 }

/-- Witness for claim C5: with dice 6 and a free entry cell, the base move
is legal. -/
theorem c5_witness :
    500 ≤ sC5.currentPositions .P1 0 ∧ validateMove sC5 .P1 0 = true :=
  ⟨by decide,
   (c5_base_exit_requires_six sC5 .P1 0 (by decide)).mpr ⟨rfl, by decide⟩⟩

theorem checkForKill_killed (s : GameState) (pid : Player) (np : Nat)
    (q : Player) (i : Fin 4)
    (hmem : (q, i) ∈ (checkForKill s pid np).2) :
    q = otherPlayer pid ∧
    (checkForKill s pid np).1.currentPositions q i =
      (BASE_POSITIONS q).getD i.val 0 := by
  unfold checkForKill at hmem ⊢
  by_cases hs : np ∈ SAFE_POSITIONS
  · rw [if_pos hs] at hmem
    exact absurd hmem (by simp)
  · rw [if_neg hs] at hmem
    rw [if_neg hs]
    cases hl : s.lockedPositions np with
    | some o =>
        rw [hl] at hmem
        exact absurd hmem (by simp)
    | none =>
        rw [hl] at hmem
        simp only [hl]
        simp only [List.mem_map] at hmem
        obtain ⟨a, ha, hqa⟩ := hmem
        rw [List.mem_filter] at ha
        have ha2 := of_decide_eq_true ha.2
        cases hqa
        refine ⟨rfl, ?_⟩
        simp [ha2]

/-- Claim C4: capture is resolved only at the landed cell; on a safe cell
or on a cell locked by any seat (including a lock the mover's opponent
owns) nothing is evicted and the state is untouched; otherwise exactly the
opposing pieces standing on that cell are recorded and sent back to their
own base slots of the same piece index while the mover's pieces are
untouched, and every eviction recorded in the movement record of applyMove
leaves that opposing piece on its own base slot. -/
theorem c4_checkForKill_spec (s : GameState) (pid : Player) (np : Nat)
    (idx : Fin 4) :
    ((np ∈ SAFE_POSITIONS ∨ (s.lockedPositions np).isSome = true) →
        checkForKill s pid np = (s, []))
    ∧ (np ∉ SAFE_POSITIONS → s.lockedPositions np = none →
        ((∀ i : Fin 4,
            ((otherPlayer pid, i) ∈ (checkForKill s pid np).2 ↔
             s.currentPositions (otherPlayer pid) i = np))
         ∧ (∀ i : Fin 4,
             (checkForKill s pid np).1.currentPositions (otherPlayer pid) i =
               if s.currentPositions (otherPlayer pid) i = np
               then (BASE_POSITIONS (otherPlayer pid)).getD i.val 0
               else s.currentPositions (otherPlayer pid) i)
         ∧ (∀ i : Fin 4,
             (checkForKill s pid np).1.currentPositions pid i =
               s.currentPositions pid i)))
    ∧ (∀ q i, (q, i) ∈ (applyMove s pid idx).2.killedPieces →
        q = otherPlayer pid ∧
        (applyMove s pid idx).1.currentPositions q i =
          (BASE_POSITIONS q).getD i.val 0) := by
  refine ⟨?_, ?_, ?_⟩
  · intro hcond
    unfold checkForKill
    by_cases hs : np ∈ SAFE_POSITIONS
    · rw [if_pos hs]
    · rw [if_neg hs]
      rcases hcond with hc | hc
      · exact absurd hc hs
      · cases hl : s.lockedPositions np with
        | none => rw [hl] at hc; exact absurd hc (by simp)
        | some o => rfl
  · intro hs hl
    unfold checkForKill
    rw [if_neg hs]
    simp only [hl]
    refine ⟨?_, ?_, ?_⟩
    · intro i
      simp [List.mem_map, List.mem_filter, List.mem_finRange]
    · intro i
      by_cases hc : s.currentPositions (otherPlayer pid) i = np
      · simp [hc]
      · simp [hc]
    · intro i
      simp [ne_otherPlayer pid]
  · intro q i hmem
    exact checkForKill_killed (movedState s pid idx) pid
      (landingPos s pid idx) q i hmem

/-- A snapshot where P1 and P3 pieces share safe cell 13 and one P3 piece
stands alone on plain cell 10. -/
def cpC4 : Player → Fin 4 → Nat := fun p i =>
  (match p with
   | Player.P1 => [13, 500, 501, 502]
   | Player.P3 => [13, 10, 600, 601]).getD i.val 0

def sC4 : GameState :=
  { currentPositions := cpC4, turn := 0, diceValue := some 1,
    killOccurred := false, lockedPositions := lockedAfter cpC4 }

/-- Witness for claim C4: landing on safe cell 13 evicts nothing, while
landing on plain cell 10 evicts the P3 piece of index 1 to its base slot
601. -/
theorem c4_witness :
    checkForKill sC4 .P1 13 = (sC4, [])
    ∧ (otherPlayer .P1, (1 : Fin 4)) ∈ (checkForKill sC4 .P1 10).2
    ∧ (checkForKill sC4 .P1 10).1.currentPositions (otherPlayer .P1) 1 =
        601 := by
  have h13 := c4_checkForKill_spec sC4 .P1 13 0
  have h10 := c4_checkForKill_spec sC4 .P1 10 0
  refine ⟨h13.1 (Or.inl (by decide)), ?_, ?_⟩
  · exact ((h10.2.1 (by decide) (by decide)).1 1).mpr (by decide)
  · rw [(h10.2.1 (by decide) (by decide)).2.1 1]
    decide

/-- Claim C7: after an applied move that does not end the game, the turn
stays with the same seat exactly when the consumed dice value was 6 or the
move killed at least one piece, and switches to the other seat otherwise;
the pending dice value is cleared on every applied move and on every
accepted pass. -/
theorem c7_turn_transition (s sm sp spOut : GameState) (r rp : Player)
    (idx : Fin 4) (md : MoveData) :
    (handleMakeMove s r idx = .applied sm md →
        (sm.turn = if s.diceValue = some 6 ∨ md.killOccurred = true
                   then s.turn else (s.turn + 1) % 2)
        ∧ sm.diceValue = none)
    ∧ (handleNoMoves sp rp = .accepted spOut →
        spOut.diceValue = none ∧ spOut.turn = (sp.turn + 1) % 2) := by
  constructor
  · intro h
    simp only [handleMakeMove] at h
    split at h
    · exact absurd h (by simp)
    · split at h
      · exact absurd h (by simp)
      · split at h
        · exact absurd h (by simp)
        · injection h with h1 h2
          subst h1
          subst h2
          constructor
          · show (if (applyMove s (playerAt s.turn) idx).1.diceValue = some 6
                     ∨ (applyMove s (playerAt s.turn) idx).1.killOccurred = true
                  then (applyMove s (playerAt s.turn) idx).1.turn
                  else ((applyMove s (playerAt s.turn) idx).1.turn + 1) % 2)
                = if s.diceValue = some 6
                     ∨ (applyMove s (playerAt s.turn) idx).2.killOccurred = true
                  then s.turn else (s.turn + 1) % 2
            rw [applyMove_fst_turn, applyMove_fst_diceValue, applyMove_fst_kill]
          · rfl
  · intro h
    simp only [handleNoMoves] at h
    split at h
    · exact absurd h (by simp)
    · injection h with h1
      subst h1
      exact ⟨rfl, rfl⟩

/-- A snapshot with one P1 piece on track cell 5, everything else in base,
dice value 2, P1 to move: an applied move with no six and no kill. -/
def cpW7 : Player → Fin 4 → Nat := fun p i =>
  (match p with
   | Player.P1 => [5, 500, 501, 502]
   | Player.P3 => [600, 601, 602, 603]).getD i.val 0

def sW7 : GameState :=
  { currentPositions := cpW7, turn := 0, diceValue := some 2,
    killOccurred := false, lockedPositions := lockedAfter cpW7 }

def amW7 : GameState × MoveData := applyMove sW7 .P1 0

def smW7 : GameState :=
  { amW7.1 with turn := (amW7.1.turn + 1) % 2, diceValue := none,
                killOccurred := false }

/-- Witness for claim C7: the dice-2 no-kill move hands the turn to seat
index 1 and clears the dice value. -/
theorem c7_witness : smW7.turn = 1 ∧ smW7.diceValue = none := by
  have h := (c7_turn_transition sW7 smW7 sW7 sW7 .P1 .P1 0 amW7.2).1 rfl
  refine ⟨?_, h.2⟩
  rw [h.1]
  decide

/-- Counterexample to claim C8: a snapshot with two P1 pieces and two P3
pieces on the same cell 10. -/
def cpC8 : Player → Fin 4 → Nat := fun p i =>
  (match p with
   | Player.P1 => [10, 10, 500, 501]
   | Player.P3 => [10, 10, 600, 601]).getD i.val 0

/-- Counterexample to claim C8: when both seats have two pieces on cell
10, the claim's condition "exactly one seat has 2 or more pieces there"
is false, yet the recomputed lock index still marks the cell locked (and
hands ownership to P3, the seat enumerated last). -/
theorem c8_cex :
    2 ≤ countAt cpC8 .P1 10
    ∧ 2 ≤ countAt cpC8 .P3 10
    ∧ lockedAfter cpC8 10 = some .P3 := by
  refine ⟨by decide, by decide, by decide⟩

/-- Claim C8 amended: the recomputed lock index marks a position as locked
iff at least one seat has 2 or more of its pieces there, pieces standing
on their own seat's base or Home values being never counted; the owner is
P3 whenever P3 qualifies and P1 only when P1 alone qualifies, so at most
one seat owns any cell. -/
theorem c8_lock_index_amended (cp : Player → Fin 4 → Nat) (c : Nat) :
    ((lockedAfter cp c).isSome = true ↔
      2 ≤ countAt cp .P1 c ∨ 2 ≤ countAt cp .P3 c)
    ∧ (lockedAfter cp c = some .P3 ↔ 2 ≤ countAt cp .P3 c)
    ∧ (lockedAfter cp c = some .P1 ↔
        (2 ≤ countAt cp .P1 c ∧ ¬ 2 ≤ countAt cp .P3 c))
    ∧ (c ∈ BASE_POSITIONS .P1 ∨ c = HOME_POSITIONS .P1 →
        countAt cp .P1 c = 0)
    ∧ (c ∈ BASE_POSITIONS .P3 ∨ c = HOME_POSITIONS .P3 →
        countAt cp .P3 c = 0) := by
  refine ⟨?_, ?_, ?_, ?_, ?_⟩
  · unfold lockedAfter
    split_ifs with h1 h2 <;> simp_all
  · unfold lockedAfter
    split_ifs with h1 h2 <;> simp_all
  · unfold lockedAfter
    split_ifs with h1 h2 <;> simp_all
  · intro h
    unfold countAt
    rw [List.length_eq_zero, List.filter_eq_nil_iff]
    intro a _
    intro hcon
    obtain ⟨h1, h2, h3⟩ := of_decide_eq_true hcon
    rw [h1] at h2 h3
    rcases h with hb | hh
    · exact h2 hb
    · exact h3 hh
  · intro h
    unfold countAt
    rw [List.length_eq_zero, List.filter_eq_nil_iff]
    intro a _
    intro hcon
    obtain ⟨h1, h2, h3⟩ := of_decide_eq_true hcon
    rw [h1] at h2 h3
    rcases h with hb | hh
    · exact h2 hb
    · exact h3 hh

/-- Witness for claim C8 (amended): with two P1 pieces alone stacked on
cell 20, the cell is locked by P1, and P1's base value 500 never counts. -/
def cpW8 : Player → Fin 4 → Nat := fun p i =>
  (match p with
   | Player.P1 => [20, 20, 500, 500]
   | Player.P3 => [600, 601, 602, 603]).getD i.val 0

theorem c8_witness :
    lockedAfter cpW8 20 = some .P1 ∧ countAt cpW8 .P1 500 = 0 := by
  constructor
  · exact ((c8_lock_index_amended cpW8 20).2.2.1).mpr ⟨by decide, by decide⟩
  · exact (c8_lock_index_amended cpW8 500).2.2.2.1 (Or.inl (by decide))

/-- Claim C9: every rejected intent (move out of turn, invalid move, roll
or pass out of turn) leaves the match state exactly as it was: the
rejected result carries the unchanged state, so positions, turn, dice
value, kill flag and lock map are all preserved. -/
theorem c9_rejection_preserves_state (s s1 s2 s3 : GameState)
    (r1 r2 r3 : Player) (idx : Fin 4) (roll : Nat) :
    (handleMakeMove s r1 idx = .rejected s1 → s1 = s)
    ∧ (handleDiceRoll s r2 roll = .rejected s2 → s2 = s)
    ∧ (handleNoMoves s r3 = .rejected s3 → s3 = s) := by
  refine ⟨?_, ?_, ?_⟩
  · intro h
    simp only [handleMakeMove] at h
    split at h
    · injection h with h1; exact h1.symm
    · split at h
      · injection h with h1; exact h1.symm
      · split at h
        · exact absurd h (by simp)
        · exact absurd h (by simp)
  · intro h
    simp only [handleDiceRoll] at h
    split at h
    · injection h with h1; exact h1.symm
    · exact absurd h (by simp)
  · intro h
    simp only [handleNoMoves] at h
    split at h
    · injection h with h1; exact h1.symm
    · exact absurd h (by simp)

/-- A snapshot with P1 to move, used to exhibit a rejected out-of-turn
intent. -/
def cpW9 : Player → Fin 4 → Nat := fun p i =>
  (match p with
   | Player.P1 => [5, 500, 501, 502]
   | Player.P3 => [30, 600, 601, 602]).getD i.val 0

def sW9 : GameState :=
  { currentPositions := cpW9, turn := 0, diceValue := some 4,
    killOccurred := false, lockedPositions := lockedAfter cpW9 }

/-- Witness for claim C9: a move intent by P3 while it is P1's turn is
rejected with the state unchanged. -/
theorem c9_witness :
    handleMakeMove sW9 .P3 0 = MoveResult.rejected sW9 ∧ sW9 = sW9 := by
  constructor
  · rfl
  · exact (c9_rejection_preserves_state sW9 sW9 sW9 sW9 .P3 .P3 .P3 0 1).1 rfl

/-- A snapshot with a dice value of 4 already pending and P1 (the current
seat) about to roll again. -/
def cpC10 : Player → Fin 4 → Nat := fun p i =>
  (match p with
   | Player.P1 => [500, 501, 502, 503]
   | Player.P3 => [600, 601, 602, 603]).getD i.val 0

def sC10 : GameState :=
  { currentPositions := cpC10, turn := 0, diceValue := some 4,
    killOccurred := false, lockedPositions := lockedAfter cpC10 }

/-- Extracts the stored dice value from an accepted roll outcome. -/
def rollOutcomeDice (r : RollResult) : Option (Option Nat) :=
  match r with
  | .rolled s => some s.diceValue
  | .rejected _ => none

/-- Counterexample to claim C10: with a dice value of 4 already pending
and not yet consumed, a new roll by the current seat is not rejected: it
is accepted and stores the fresh value 5. -/
theorem c10_cex :
    sC10.diceValue = some 4
    ∧ rollOutcomeDice (handleDiceRoll sC10 .P1 5) = some (some 5) := by
  refine ⟨rfl, rfl⟩

/-- Claim C10 amended: the roll handler rejects exactly the requests of
the seat not holding the turn, and then stores no new dice value; a
request by the current seat is always accepted and overwrites any pending
dice value. -/
theorem c10_roll_amended (s : GameState) (r : Player) (roll : Nat) :
    (r ≠ playerAt s.turn → handleDiceRoll s r roll = .rejected s)
    ∧ (r = playerAt s.turn →
        handleDiceRoll s r roll = .rolled { s with diceValue := some roll }) := by
  constructor
  · intro h
    unfold handleDiceRoll
    rw [if_pos h]
  · intro h
    unfold handleDiceRoll
    rw [if_neg (not_not_intro h)]

/-- Witness for claim C10 (amended): P3 rolling out of turn is rejected,
P1 rolling in turn stores the value 2. -/
theorem c10_witness :
    handleDiceRoll sC10 .P3 2 = RollResult.rejected sC10
    ∧ handleDiceRoll sC10 .P1 2 =
        RollResult.rolled { sC10 with diceValue := some 2 } :=
  ⟨(c10_roll_amended sC10 .P3 2).1 (by decide),
   (c10_roll_amended sC10 .P1 2).2 (by decide)⟩

end Ludo
